import Mathlib

/-!
Shallow embedding of the DeepLearningLibrary activation / gradient / loss
routines, with C++ `float` read as exact real arithmetic (ℝ).  The one
float behaviour that the claims depend on and that ℝ cannot express is the
IEEE-754 quotient `0.0f / 0`, which is NaN: the final mean division of each
loss is therefore modelled by `meanDiv`, returning `none` exactly when the
divisor is zero (the NaN case) and `some (s / n)` otherwise.  C++ exceptions
become `Except LossError`, with `ShapeMismatch` for the size /
emptiness `std::invalid_argument` throws and `DomainViolation` for the
value-range throws.
-/

namespace DLL

/-- The two error kinds of the library's loss functions. -/
inductive LossError
  | ShapeMismatch
  | DomainViolation
  deriving DecidableEq, Repr

/-- The final `accumulator / n` of every loss, with `none` standing for the
IEEE NaN produced by dividing by a zero sample count. -/
noncomputable def meanDiv (s : ℝ) (n : ℕ) : Option ℝ :=
  if n = 0 then none else some (s / n)

/-! ### Activation functions (src/activation_functions.cpp) -/

/-- `float sigmoid(float x) { float value = 1.0 + exp(-x); return 1.0/value; }` -/
noncomputable def sigmoid (x : ℝ) : ℝ :=
  let value := 1 + Real.exp (-x)
  1 / value

/-! ### Activation gradients (src/activation_funcs_gradient.cpp) -/

/-- `float binary_step_gradient(float x) { return (x == 0) ? 0.0f : 1.0f; }` -/
noncomputable def binary_step_gradient (x : ℝ) : ℝ :=
  if x = 0 then 0 else 1

/-- `float sigmoid_gradient(float x) { float sig = 1.0f / (1.0f + exp(-x)); return sig * (1.0f - sig); }` -/
noncomputable def sigmoid_gradient (x : ℝ) : ℝ :=
  let sig := 1 / (1 + Real.exp (-x))
  sig * (1 - sig)

/-! ### Softmax Jacobian (src/activation_funcs_gradient.cpp, lines 137-159)

The C++ starts with `*std::max_element(logits.begin(), logits.end())`, which
is undefined behaviour on an empty vector (dereferencing the end iterator):
the embedding returns `none` there and the Jacobian otherwise. -/

/-- The stabilized softmax probabilities computed inside `softmax_gradient`:
subtract the maximum logit, exponentiate, divide by the sum of exponentials. -/
noncomputable def softmax_probs : List ℝ → List ℝ
  | [] => []
  | a :: t =>
    let max_logit := t.foldl max a
    let sum_exp := ((a :: t).map (fun l => Real.exp (l - max_logit))).sum
    (a :: t).map (fun l => Real.exp (l - max_logit) / sum_exp)

/-- `std::vector<std::vector<float>> softmax_gradient(const std::vector<float>& logits)`:
Jacobian entries `p[i]*(1-p[i])` on the diagonal and `-p[i]*p[j]` off it. -/
noncomputable def softmax_gradient (logits : List ℝ) : Option (List (List ℝ)) :=
  match logits with
  | [] => none
  | a :: t =>
    let p := softmax_probs (a :: t)
    let n := (a :: t).length
    some ((List.range n).map (fun i => (List.range n).map (fun j =>
      if i = j then p.getD i 0 * (1 - p.getD i 0)
      else -(p.getD i 0 * p.getD j 0))))

/-! ### Loss functions (headers/loss_functions.cpp)

Loops with in-body throws are translated as structurally recursive loops over
the zipped prediction/target pairs (the C++ indexes both vectors with the same
`i` after the equal-size check, so zipping is the same traversal); loops
without throws are `List.foldl` over the zip. -/

/-- `float mean_squared_error(predictions, targets)` (lines 17-29). -/
noncomputable def mean_squared_error (predictions targets : List ℝ) :
    Except LossError (Option ℝ) :=
  if predictions.length ≠ targets.length then .error .ShapeMismatch
  else
    let mse := (predictions.zip targets).foldl
      (fun acc pt => acc + (pt.1 - pt.2) * (pt.1 - pt.2)) 0
    .ok (meanDiv mse predictions.length)

/-- `float mean_absolute_error(predictions, targets)` (lines 76-87). -/
noncomputable def mean_absolute_error (predictions targets : List ℝ) :
    Except LossError (Option ℝ) :=
  if predictions.length ≠ targets.length then .error .ShapeMismatch
  else
    let mae := (predictions.zip targets).foldl
      (fun acc pt => acc + |pt.1 - pt.2|) 0
    .ok (meanDiv mae predictions.length)

/-- The loop of `binary_cross_entropy`: per-element range checks
(`std::out_of_range`, i.e. DomainViolation) then the BCE accumulation. -/
noncomputable def bce_loop : List (ℝ × ℝ) → ℝ → Except LossError ℝ
  | [], acc => .ok acc
  | pt :: rest, acc =>
    if pt.1 < 0 ∨ pt.1 > 1 then .error .DomainViolation
    else if pt.2 < 0 ∨ pt.2 > 1 then .error .DomainViolation
    else bce_loop rest
      (acc + (pt.2 * Real.log pt.1 + (1 - pt.2) * Real.log (1 - pt.1)))

/-- `float binary_cross_entropy(predictions, targets)` (lines 50-74): rejects
empty predictions, then mismatched sizes, then accumulates with per-element
range checks and returns `-bce / n`. -/
noncomputable def binary_cross_entropy (predictions targets : List ℝ) :
    Except LossError (Option ℝ) :=
  if predictions.length = 0 then .error .ShapeMismatch
  else if predictions.length ≠ targets.length then .error .ShapeMismatch
  else
    match bce_loop (predictions.zip targets) 0 with
    | .error e => .error e
    | .ok bce => .ok (meanDiv (-bce) predictions.length)

/-- The outer loop of `categorical_cross_entropy`: per-sample class-count
check, then `cce -= log(predictions[i][j])` at every `j` with
`targets[i][j] == 1.0f`. -/
noncomputable def cce_loop : List (List ℝ × List ℝ) → ℝ → Except LossError ℝ
  | [], acc => .ok acc
  | pt :: rest, acc =>
    if pt.1.length ≠ pt.2.length then .error .ShapeMismatch
    else cce_loop rest
      ((pt.1.zip pt.2).foldl
        (fun c qt => if qt.2 = 1 then c - Real.log qt.1 else c) acc)

/-- `float categorical_cross_entropy(predictions, targets)` (lines 106-125):
only shape checks, no value-range checks. -/
noncomputable def categorical_cross_entropy
    (predictions targets : List (List ℝ)) : Except LossError (Option ℝ) :=
  if predictions.length ≠ targets.length then .error .ShapeMismatch
  else
    match cce_loop (predictions.zip targets) 0 with
    | .error e => .error e
    | .ok cce => .ok (meanDiv cce predictions.length)

/-- `float huber_loss(predictions, targets, delta)` (lines 136-152). -/
noncomputable def huber_loss (predictions targets : List ℝ) (delta : ℝ) :
    Except LossError (Option ℝ) :=
  if predictions.length ≠ targets.length then .error .ShapeMismatch
  else
    let loss := (predictions.zip targets).foldl
      (fun acc pt =>
        let error := pt.1 - pt.2
        if |error| ≤ delta then acc + 0.5 * error * error
        else acc + delta * (|error| - 0.5 * delta)) 0
    .ok (meanDiv loss predictions.length)

/-- The loop of `sparse_categorical_cross_entropy`: index-range check
(`std::out_of_range`, i.e. DomainViolation) then
`loss -= log(predictions[i][targets[i]])`. -/
noncomputable def scce_loop : List (List ℝ × Int) → ℝ → Except LossError ℝ
  | [], acc => .ok acc
  | pt :: rest, acc =>
    if pt.2 < 0 ∨ pt.2 ≥ (pt.1.length : Int) then .error .DomainViolation
    else scce_loop rest (acc - Real.log (pt.1.getD pt.2.toNat 0))

/-- `float sparse_categorical_cross_entropy(predictions, targets)`
(lines 168-182). -/
noncomputable def sparse_categorical_cross_entropy
    (predictions : List (List ℝ)) (targets : List Int) :
    Except LossError (Option ℝ) :=
  if predictions.length ≠ targets.length then .error .ShapeMismatch
  else
    match scce_loop (predictions.zip targets) 0 with
    | .error e => .error e
    | .ok loss => .ok (meanDiv loss predictions.length)

/-- The inner loop of `kullback_leibler_divergence`: per-element range checks
(DomainViolation), skip `targets[i][j] == 0`, accumulate `t * log(t / p)`. -/
noncomputable def kl_inner_loop : List (ℝ × ℝ) → ℝ → Except LossError ℝ
  | [], acc => .ok acc
  | qt :: rest, acc =>
    if qt.1 < 0 ∨ qt.1 > 1 then .error .DomainViolation
    else if qt.2 < 0 ∨ qt.2 > 1 then .error .DomainViolation
    else if qt.2 = 0 then kl_inner_loop rest acc
    else kl_inner_loop rest (acc + qt.2 * Real.log (qt.2 / qt.1))

/-- The outer loop of `kullback_leibler_divergence`: per-sample class-count
check, then the inner element loop. -/
noncomputable def kl_loop : List (List ℝ × List ℝ) → ℝ → Except LossError ℝ
  | [], acc => .ok acc
  | pt :: rest, acc =>
    if pt.1.length ≠ pt.2.length then .error .ShapeMismatch
    else
      match kl_inner_loop (pt.1.zip pt.2) acc with
      | .error e => .error e
      | .ok acc2 => kl_loop rest acc2

/-- `float kullback_leibler_divergence(predictions, targets)`
(lines 192-213). -/
noncomputable def kullback_leibler_divergence
    (predictions targets : List (List ℝ)) : Except LossError (Option ℝ) :=
  if predictions.length ≠ targets.length then .error .ShapeMismatch
  else
    match kl_loop (predictions.zip targets) 0 with
    | .error e => .error e
    | .ok kl => .ok (meanDiv kl predictions.length)

/-- The loop of `hinge_loss`: target-in-{-1,1} check (DomainViolation per the
error taxonomy) then the positive-margin accumulation. -/
noncomputable def hinge_loop : List (ℝ × Int) → ℝ → Except LossError ℝ
  | [], acc => .ok acc
  | pt :: rest, acc =>
    if pt.2 ≠ -1 ∧ pt.2 ≠ 1 then .error .DomainViolation
    else
      let margin := 1 - (pt.2 : ℝ) * pt.1
      if margin > 0 then hinge_loop rest (acc + margin)
      else hinge_loop rest acc

/-- `float hinge_loss(predictions, targets)` (lines 225-240). -/
noncomputable def hinge_loss (predictions : List ℝ) (targets : List Int) :
    Except LossError (Option ℝ) :=
  if predictions.length ≠ targets.length then .error .ShapeMismatch
  else
    match hinge_loop (predictions.zip targets) 0 with
    | .error e => .error e
    | .ok loss => .ok (meanDiv loss predictions.length)

/-! ### Helper lemmas -/

theorem mse_fold_self : ∀ (l : List ℝ) (c : ℝ),
    (l.zip l).foldl (fun acc pt => acc + (pt.1 - pt.2) * (pt.1 - pt.2)) c = c
  | [], _ => rfl
  | a :: t, c => by
    simp only [List.zip_cons_cons, List.foldl_cons, sub_self, mul_zero, add_zero]
    exact mse_fold_self t c

theorem mae_fold_self : ∀ (l : List ℝ) (c : ℝ),
    (l.zip l).foldl (fun acc pt => acc + |pt.1 - pt.2|) c = c
  | [], _ => rfl
  | a :: t, c => by
    simp only [List.zip_cons_cons, List.foldl_cons, sub_self, abs_zero, add_zero]
    exact mae_fold_self t c

/-! ### C1 -/

/-- C1: refuted as stated — the code of `binary_step_gradient` returns 1, not
0, away from `x = 0` (`return (x == 0) ? 0.0f : 1.0f;`), contradicting both
the spec and the function's own comment, which say the gradient is 0
everywhere.  At the failing input `x = 1` the embedded code yields 1. -/
theorem binary_step_gradient_one_off_zero :
    binary_step_gradient 1 = 1 ∧ binary_step_gradient 0 = 0 ∧ (1 : ℝ) ≠ 0 := by
  refine ⟨?_, ?_, one_ne_zero⟩ <;> simp [binary_step_gradient]

/-! ### C5 -/

/-- C5: the sigmoid formula reimplemented inline in `sigmoid_gradient` equals
the library's own `sigmoid`, so `sigmoid_gradient x = sigmoid x * (1 - sigmoid x)`
for every real x. -/
theorem sigmoid_gradient_eq_sigmoid_mul (x : ℝ) :
    sigmoid_gradient x = sigmoid x * (1 - sigmoid x) := rfl

/-! ### C6 -/

/-- C6: `sigmoid x + sigmoid (-x) = 1` exactly, in the exact-real reading of
`1 / (1 + e^(-x))`. -/
theorem sigmoid_add_sigmoid_neg (x : ℝ) : sigmoid x + sigmoid (-x) = 1 := by
  unfold sigmoid
  have h1 : (1 : ℝ) + Real.exp (-x) ≠ 0 := by positivity
  have h2 : (1 : ℝ) + Real.exp x ≠ 0 := by positivity
  have h3 : Real.exp x ≠ 0 := Real.exp_ne_zero x
  simp only [neg_neg]
  rw [Real.exp_neg]
  field_simp
  ring

/-! ### C8 -/

/-- C8, amended: for every **nonempty** vector p,
`mean_squared_error p p` and `mean_absolute_error p p` are the numeric
value 0; the empty vector is excluded because there the code divides the
zero accumulator by a zero size, an IEEE NaN. -/
theorem mse_mae_self_zero (p : List ℝ) (h : p ≠ []) :
    mean_squared_error p p = .ok (some 0) ∧
    mean_absolute_error p p = .ok (some 0) := by
  have hn : p.length ≠ 0 := by simpa using (List.length_pos.mpr h).ne'
  constructor
  · simp [mean_squared_error, mse_fold_self, meanDiv, hn]
  · simp [mean_absolute_error, mae_fold_self, meanDiv, hn]

/-- Witness for C8's amended theorem at the concrete vector `[1, 2]`. -/
theorem mse_mae_self_zero_witness :
    mean_squared_error [(1 : ℝ), 2] [(1 : ℝ), 2] = .ok (some 0) ∧
    mean_absolute_error [(1 : ℝ), 2] [(1 : ℝ), 2] = .ok (some 0) :=
  mse_mae_self_zero [(1 : ℝ), 2] (by simp)

/-- C8, counterexample: at the empty vector — which the claim explicitly
includes — both losses return the 0/0 NaN (`none`), not the value 0. -/
theorem mse_mae_empty_not_zero :
    mean_squared_error ([] : List ℝ) [] = .ok none ∧
    mean_absolute_error ([] : List ℝ) [] = .ok none ∧
    mean_squared_error ([] : List ℝ) [] ≠ .ok (some 0) ∧
    mean_absolute_error ([] : List ℝ) [] ≠ .ok (some 0) := by
  refine ⟨?_, ?_, ?_, ?_⟩ <;>
    simp [mean_squared_error, mean_absolute_error, meanDiv]

/-! ### C9 -/

/-- C9: only `binary_cross_entropy` rejects empty input (its dedicated
emptiness check, a ShapeMismatch); every other loss, on two empty
equal-length collections, passes the shape check, iterates zero times and
returns the 0/0 quotient (the NaN `none`) rather than any error. -/
theorem only_bce_rejects_empty (δ : ℝ) :
    binary_cross_entropy [] [] = .error .ShapeMismatch ∧
    mean_squared_error [] [] = .ok none ∧
    mean_absolute_error [] [] = .ok none ∧
    categorical_cross_entropy [] [] = .ok none ∧
    sparse_categorical_cross_entropy [] [] = .ok none ∧
    kullback_leibler_divergence [] [] = .ok none ∧
    hinge_loss [] [] = .ok none ∧
    huber_loss [] [] δ = .ok none := by
  refine ⟨?_, ?_, ?_, ?_, ?_, ?_, ?_, ?_⟩ <;>
    simp [binary_cross_entropy, mean_squared_error, mean_absolute_error,
      categorical_cross_entropy, sparse_categorical_cross_entropy,
      kullback_leibler_divergence, hinge_loss, huber_loss,
      cce_loop, scce_loop, kl_loop, hinge_loop, meanDiv]

/-! ### C2 -/

theorem cce_loop_no_domain : ∀ (l : List (List ℝ × List ℝ)) (c : ℝ),
    cce_loop l c ≠ .error .DomainViolation
  | [], c => by simp [cce_loop]
  | pt :: rest, c => by
    unfold cce_loop
    split
    · simp
    · exact cce_loop_no_domain rest _

/-- C2, counterexample: `categorical_cross_entropy [[1.5]] [[0]]` has a
prediction entry 1.5 outside [0,1] yet returns the numeric value 0 — the
function has no range check at all, so no DomainViolation is raised. -/
theorem cce_out_of_range_numeric :
    ((3 : ℝ) / 2 > 1) ∧
    categorical_cross_entropy [[(3 : ℝ) / 2]] [[(0 : ℝ)]] = .ok (some 0) := by
  constructor
  · norm_num
  · norm_num [categorical_cross_entropy, cce_loop, meanDiv]

/-- C2, amended: `categorical_cross_entropy` performs no [0,1] range
validation — it can never return DomainViolation, for any input; only its
shape checks can fail. -/
theorem cce_never_domain_violation (p t : List (List ℝ)) :
    categorical_cross_entropy p t ≠ .error .DomainViolation := by
  unfold categorical_cross_entropy
  split
  · simp
  · cases heq : cce_loop (p.zip t) 0 with
    | error e =>
      simp only [heq]
      intro hc
      rw [show e = LossError.DomainViolation by injection hc] at heq
      exact cce_loop_no_domain (p.zip t) 0 heq
    | ok c => simp [heq]

/-- Witness for C2's amended theorem at a concrete batch. -/
theorem cce_never_domain_violation_witness :
    categorical_cross_entropy [[(1 : ℝ)]] [[(1 : ℝ)]] ≠
      .error .DomainViolation :=
  cce_never_domain_violation [[(1 : ℝ)]] [[(1 : ℝ)]]

/-! ### C3 -/

theorem kl_inner_loop_error_domain : ∀ (l : List (ℝ × ℝ)) (c : ℝ)
    (e : LossError), kl_inner_loop l c = .error e → e = .DomainViolation
  | [], c, e => by simp [kl_inner_loop]
  | qt :: rest, c, e => by
    unfold kl_inner_loop
    split
    · intro h; injection h with h; exact h.symm
    · split
      · intro h; injection h with h; exact h.symm
      · split
        · exact kl_inner_loop_error_domain rest c e
        · exact kl_inner_loop_error_domain rest _ e

theorem cce_loop_inner_mismatch : ∀ (l : List (List ℝ × List ℝ)) (c : ℝ),
    (∃ pr ∈ l, pr.1.length ≠ pr.2.length) →
    cce_loop l c = .error .ShapeMismatch
  | [], c => by rintro ⟨pr, h, _⟩; simp at h
  | pt :: rest, c => by
    rintro ⟨pr, hmem, hne⟩
    unfold cce_loop
    split
    · rfl
    · next hlen =>
      rcases List.mem_cons.mp hmem with rfl | hmem2
      · exact absurd hne hlen
      · exact cce_loop_inner_mismatch rest _ ⟨pr, hmem2, hne⟩

theorem kl_loop_inner_mismatch : ∀ (l : List (List ℝ × List ℝ)) (c : ℝ),
    (∃ pr ∈ l, pr.1.length ≠ pr.2.length) →
    kl_loop l c = .error .ShapeMismatch ∨
    kl_loop l c = .error .DomainViolation
  | [], c => by rintro ⟨pr, h, _⟩; simp at h
  | pt :: rest, c => by
    rintro ⟨pr, hmem, hne⟩
    unfold kl_loop
    split
    · exact Or.inl rfl
    · next hlen =>
      rcases List.mem_cons.mp hmem with rfl | hmem2
      · exact absurd hne hlen
      · cases heq : kl_inner_loop (pt.1.zip pt.2) c with
        | error e =>
          simp only [heq]
          rw [kl_inner_loop_error_domain _ _ _ heq]
          exact Or.inr rfl
        | ok acc2 =>
          simp only [heq]
          exact kl_loop_inner_mismatch rest acc2 ⟨pr, hmem2, hne⟩

/-- C3, counterexample: in `kullback_leibler_divergence`, the per-sample
class-count check sits inside the sample loop, after earlier samples'
element range checks — so for a batch whose first sample holds the
out-of-range prediction 2 and whose second sample has mismatched class
counts (2 vs 1), the call reports DomainViolation, not ShapeMismatch, and
the mismatch check did not precede computation. -/
theorem kl_mismatch_preempted_by_domain :
    ([(1 : ℝ) / 2, 1 / 2].length ≠ [(1 : ℝ) / 2].length) ∧
    kullback_leibler_divergence [[(2 : ℝ)], [1 / 2, 1 / 2]]
      [[(0 : ℝ)], [1 / 2]] = .error .DomainViolation ∧
    kullback_leibler_divergence [[(2 : ℝ)], [1 / 2, 1 / 2]]
      [[(0 : ℝ)], [1 / 2]] ≠ .error .ShapeMismatch := by
  refine ⟨by simp, ?_, ?_⟩
  · norm_num [kullback_leibler_divergence, kl_loop, kl_inner_loop, meanDiv]
  · norm_num [kullback_leibler_divergence, kl_loop, kl_inner_loop, meanDiv]
    decide

/-- C3, amended: a batch-level length mismatch makes every loss return
ShapeMismatch (checked before any computation); for the batched losses the
per-sample class-count check runs inside the sample loop, so an inner
mismatch still yields ShapeMismatch for `categorical_cross_entropy` (which
can raise nothing else), while for `kullback_leibler_divergence` the call
errors but may report DomainViolation instead when an earlier sample
contains an out-of-range entry. -/
theorem losses_shape_mismatch :
    (∀ (p t : List ℝ), p.length ≠ t.length →
      mean_squared_error p t = .error .ShapeMismatch ∧
      mean_absolute_error p t = .error .ShapeMismatch ∧
      binary_cross_entropy p t = .error .ShapeMismatch ∧
      ∀ δ, huber_loss p t δ = .error .ShapeMismatch) ∧
    (∀ (p : List ℝ) (t : List Int), p.length ≠ t.length →
      hinge_loss p t = .error .ShapeMismatch) ∧
    (∀ (p : List (List ℝ)) (t : List Int), p.length ≠ t.length →
      sparse_categorical_cross_entropy p t = .error .ShapeMismatch) ∧
    (∀ (p t : List (List ℝ)), p.length ≠ t.length →
      categorical_cross_entropy p t = .error .ShapeMismatch ∧
      kullback_leibler_divergence p t = .error .ShapeMismatch) ∧
    (∀ (p t : List (List ℝ)), p.length = t.length →
      (∃ pr ∈ p.zip t, pr.1.length ≠ pr.2.length) →
      categorical_cross_entropy p t = .error .ShapeMismatch) ∧
    (∀ (p t : List (List ℝ)), p.length = t.length →
      (∃ pr ∈ p.zip t, pr.1.length ≠ pr.2.length) →
      kullback_leibler_divergence p t = .error .ShapeMismatch ∨
      kullback_leibler_divergence p t = .error .DomainViolation) := by
  refine ⟨?_, ?_, ?_, ?_, ?_, ?_⟩
  · intro p t h
    refine ⟨by simp [mean_squared_error, h], by simp [mean_absolute_error, h],
      ?_, fun δ => by simp [huber_loss, h]⟩
    by_cases h0 : p.length = 0 <;> simp [binary_cross_entropy, h0, h]
  · intro p t h
    simp [hinge_loss, h]
  · intro p t h
    simp [sparse_categorical_cross_entropy, h]
  · intro p t h
    exact ⟨by simp [categorical_cross_entropy, h],
      by simp [kullback_leibler_divergence, h]⟩
  · intro p t h hex
    simp [categorical_cross_entropy, h, cce_loop_inner_mismatch _ 0 hex]
  · intro p t h hex
    rcases kl_loop_inner_mismatch (p.zip t) 0 hex with hk | hk <;>
      simp [kullback_leibler_divergence, h, hk]

/-- Witness for C3's amended theorem at the spec's own example
`mean_squared_error [1,2,3] [1,2]`. -/
theorem losses_shape_mismatch_witness :
    mean_squared_error [(1 : ℝ), 2, 3] [(1 : ℝ), 2] = .error .ShapeMismatch :=
  (losses_shape_mismatch.1 [(1 : ℝ), 2, 3] [(1 : ℝ), 2] (by simp)).1

/-! ### C7 -/

theorem huber_fold_eq (δ : ℝ) : ∀ (l : List (ℝ × ℝ)) (c : ℝ),
    l.foldl (fun acc pt =>
      let error := pt.1 - pt.2
      if |error| ≤ δ then acc + 0.5 * error * error
      else acc + δ * (|error| - 0.5 * δ)) c
    = c + (l.map (fun pt =>
        let e := pt.1 - pt.2
        if |e| ≤ δ then 0.5 * e ^ 2 else δ * (|e| - 0.5 * δ))).sum
  | [], c => by simp
  | pt :: rest, c => by
    simp only [List.foldl_cons, List.map_cons, List.sum_cons]
    rw [huber_fold_eq δ rest]
    by_cases h : |pt.1 - pt.2| ≤ δ <;> simp only [h, if_true, if_false] <;> ring

/-- C7: for equal-length inputs, `huber_loss` is the mean over samples of
the spec's per-sample formula — `0.5 e^2` inside the δ-band and
`δ(|e| - 0.5 δ)` outside it, with `e = p - t`. -/
theorem huber_loss_spec (p t : List ℝ) (δ : ℝ) (h : p.length = t.length) :
    huber_loss p t δ = .ok (meanDiv
      ((p.zip t).map (fun pt =>
        let e := pt.1 - pt.2
        if |e| ≤ δ then 0.5 * e ^ 2 else δ * (|e| - 0.5 * δ))).sum
      p.length) := by
  simp [huber_loss, h, huber_fold_eq]

/-- Witness for C7 at the spec's concrete scenario:
`huber_loss [3] [0] 1 = 2.5` (outside the quadratic region). -/
theorem huber_loss_spec_witness :
    huber_loss [(3 : ℝ)] [(0 : ℝ)] 1 = .ok (some 2.5) := by
  have h := huber_loss_spec [(3 : ℝ)] [(0 : ℝ)] 1 rfl
  rw [h]
  norm_num [meanDiv, abs_of_nonneg]

/-! ### C4 / C10: softmax Jacobian helpers -/

theorem sum_map_range (f : ℕ → ℝ) : ∀ n : ℕ,
    ((List.range n).map f).sum = ∑ j ∈ Finset.range n, f j
  | 0 => by simp
  | n + 1 => by
    simp [List.range_succ, Finset.sum_range_succ, sum_map_range f n]

theorem sum_range_getD : ∀ l : List ℝ,
    ∑ j ∈ Finset.range l.length, l.getD j 0 = l.sum
  | [] => by simp
  | a :: t => by
    rw [List.length_cons, Finset.sum_range_succ' (fun j => (a :: t).getD j 0)]
    simp only [List.getD_cons_succ, List.getD_cons_zero, List.sum_cons]
    rw [sum_range_getD t]
    ring

theorem sum_map_div (f : ℝ → ℝ) (c : ℝ) : ∀ l : List ℝ,
    (l.map (fun x => f x / c)).sum = (l.map f).sum / c
  | [] => by simp
  | a :: t => by simp [sum_map_div f c t, add_div]

theorem sum_exp_pos (m a : ℝ) (t : List ℝ) :
    0 < (((a :: t)).map (fun l => Real.exp (l - m))).sum := by
  simp only [List.map_cons, List.sum_cons]
  have h1 : 0 ≤ (t.map (fun l => Real.exp (l - m))).sum := by
    refine List.sum_nonneg ?_
    intro x hx
    simp only [List.mem_map] at hx
    obtain ⟨y, _, rfl⟩ := hx
    exact (Real.exp_pos _).le
  have h2 := Real.exp_pos (a - m)
  linarith

theorem softmax_probs_length (a : ℝ) (t : List ℝ) :
    (softmax_probs (a :: t)).length = (a :: t).length := by
  simp [softmax_probs]

theorem softmax_probs_sum (a : ℝ) (t : List ℝ) :
    (softmax_probs (a :: t)).sum = 1 := by
  unfold softmax_probs
  rw [sum_map_div]
  exact div_self (sum_exp_pos (t.foldl max a) a t).ne'

theorem getD_map_range {α : Type} (f : ℕ → α) (d : α) {n i : ℕ} (h : i < n) :
    ((List.range n).map f).getD i d = f i := by
  have hlen : i < ((List.range n).map f).length := by simpa using h
  rw [List.getD_eq_getElem _ _ hlen]
  simp

theorem jacobian_row_sum (p : List ℝ) (hp : p.sum = 1) (i : ℕ)
    (hi : i < p.length) :
    (∑ j ∈ Finset.range p.length,
      if i = j then p.getD i 0 * (1 - p.getD i 0)
      else -(p.getD i 0 * p.getD j 0)) = 0 := by
  have step : ∀ j,
      (if i = j then p.getD i 0 * (1 - p.getD i 0)
        else -(p.getD i 0 * p.getD j 0))
      = (if j = i then p.getD i 0 else 0) - p.getD i 0 * p.getD j 0 := by
    intro j
    by_cases hij : i = j
    · subst hij; simp only [if_true]; ring
    · simp only [hij, Ne.symm hij, if_false]; ring
  rw [Finset.sum_congr rfl (fun j _ => step j), Finset.sum_sub_distrib,
    Finset.sum_ite_eq' (Finset.range p.length) i (fun _ => p.getD i 0),
    ← Finset.mul_sum, sum_range_getD, hp,
    if_pos (Finset.mem_range.mpr hi)]
  ring

/-- C4: for every non-empty logits list, `softmax_gradient` returns the
n×n Jacobian built from the max-stabilized softmax probabilities p —
`p i * (1 - p i)` on the diagonal, `-(p i * p j)` off it — and every row
sums to 0 in exact real arithmetic. -/
theorem softmax_gradient_jacobian (logits : List ℝ) (h : logits ≠ []) :
    ∃ J, softmax_gradient logits = some J ∧
      J.length = logits.length ∧
      (∀ row ∈ J, row.length = logits.length) ∧
      (∀ i j, i < logits.length → j < logits.length →
        (J.getD i []).getD j 0 =
          if i = j then
            (softmax_probs logits).getD i 0 *
              (1 - (softmax_probs logits).getD i 0)
          else -((softmax_probs logits).getD i 0 *
            (softmax_probs logits).getD j 0)) ∧
      (∀ row ∈ J, row.sum = 0) := by
  obtain ⟨a, t, rfl⟩ : ∃ a t, logits = a :: t := by
    cases logits with
    | nil => exact absurd rfl h
    | cons a t => exact ⟨a, t, rfl⟩
  refine ⟨_, rfl, by simp, ?_, ?_, ?_⟩
  · intro row hrow
    simp only [List.mem_map, List.mem_range] at hrow
    obtain ⟨i, hi, rfl⟩ := hrow
    simp
  · intro i j hi hj
    rw [getD_map_range _ _ hi, getD_map_range _ _ hj]
  · intro row hrow
    simp only [List.mem_map, List.mem_range] at hrow
    obtain ⟨i, hi, rfl⟩ := hrow
    rw [sum_map_range]
    rw [← softmax_probs_length a t] at hi ⊢
    exact jacobian_row_sum _ (softmax_probs_sum a t) i hi

/-- Witness for C4 at the concrete logits `[0, 1]`. -/
theorem softmax_gradient_jacobian_witness :
    ([(0 : ℝ), 1] ≠ ([] : List ℝ)) ∧
    ∃ J, softmax_gradient [(0 : ℝ), 1] = some J ∧
      J.length = [(0 : ℝ), 1].length ∧
      (∀ row ∈ J, row.length = [(0 : ℝ), 1].length) ∧
      (∀ i j, i < [(0 : ℝ), 1].length → j < [(0 : ℝ), 1].length →
        (J.getD i []).getD j 0 =
          if i = j then
            (softmax_probs [(0 : ℝ), 1]).getD i 0 *
              (1 - (softmax_probs [(0 : ℝ), 1]).getD i 0)
          else -((softmax_probs [(0 : ℝ), 1]).getD i 0 *
            (softmax_probs [(0 : ℝ), 1]).getD j 0)) ∧
      (∀ row ∈ J, row.sum = 0) :=
  ⟨by simp, softmax_gradient_jacobian [(0 : ℝ), 1] (by simp)⟩

/-- C10: `softmax_gradient` hits its error branch (the C++ dereferences the
end iterator of an empty vector) exactly on the empty logits list; on every
non-empty list of length n it is total and returns an n×n matrix. -/
theorem softmax_gradient_empty_none_total :
    softmax_gradient ([] : List ℝ) = none ∧
    ∀ logits : List ℝ, logits ≠ [] →
      ∃ J, softmax_gradient logits = some J ∧
        J.length = logits.length ∧
        ∀ row ∈ J, row.length = logits.length := by
  refine ⟨rfl, ?_⟩
  intro logits h
  obtain ⟨a, t, rfl⟩ : ∃ a t, logits = a :: t := by
    cases logits with
    | nil => exact absurd rfl h
    | cons a t => exact ⟨a, t, rfl⟩
  refine ⟨_, rfl, by simp, ?_⟩
  intro row hrow
  simp only [List.mem_map, List.mem_range] at hrow
  obtain ⟨i, hi, rfl⟩ := hrow
  simp

/-- Witness for C10: the error branch at `[]` and totality at `[5]`. -/
theorem softmax_gradient_empty_none_total_witness :
    softmax_gradient ([] : List ℝ) = none ∧
    ∃ J, softmax_gradient [(5 : ℝ)] = some J ∧
      J.length = [(5 : ℝ)].length ∧
      ∀ row ∈ J, row.length = [(5 : ℝ)].length :=
  ⟨softmax_gradient_empty_none_total.1,
    softmax_gradient_empty_none_total.2 [(5 : ℝ)] (by simp)⟩

end DLL
